import Mathlib

/-!
Verification of the camera and transform-matrix subsystem of glpg
(src/main.cc), shallowly embedded over the reals: float arithmetic is
modelled by real arithmetic, sqrtf/cosf/sinf/tanf by Real.sqrt etc.
Matrices keep the program's column-major 16-element layout: field `ei`
mirrors `elems[i]`.
-/

namespace Glpg

noncomputable section

open Real

/-- Window width, src/main.cc line 19. -/
def WIN_WIDTH : ℝ := 800

/-- Window height, src/main.cc line 20. -/
def WIN_HEIGHT : ℝ := 600

/-- Fixed aspect ratio, src/main.cc line 131. -/
def aspect_ratio : ℝ := WIN_WIDTH / WIN_HEIGHT

/-- Degree-to-radian conversion, src/main.cc lines 133-135. -/
def deg_to_rad (angle : ℝ) : ℝ := angle * Real.pi * 2 / 360

/-- Three-component vector, src/main.cc struct Vec3. -/
structure Vec3 where
  x : ℝ
  y : ℝ
  z : ℝ


namespace Vec3

/-- Vector length, src/main.cc Vec3::length. -/
def length (v : Vec3) : ℝ := Real.sqrt (v.x * v.x + v.y * v.y + v.z * v.z)

/-- Result of the in-place Vec3::norm (divide each component by the length),
src/main.cc lines 142-147.  No zero-length check is performed in the code. -/
def norm (v : Vec3) : Vec3 := ⟨v.x / v.length, v.y / v.length, v.z / v.length⟩

/-- Result of the in-place Vec3::cross (this := this x other),
src/main.cc lines 149-156. -/
def cross (v other : Vec3) : Vec3 :=
  ⟨v.y * other.z - v.z * other.y,
   v.z * other.x - v.x * other.z,
   v.x * other.y - v.y * other.x⟩

/-- Result of the in-place Vec3::neg, src/main.cc lines 162-166. -/
def neg (v : Vec3) : Vec3 := ⟨-v.x, -v.y, -v.z⟩

/-- Component sum, src/main.cc Vec3::sum. -/
def sum (v : Vec3) : ℝ := v.x + v.y + v.z

/-- Componentwise (hadamard) product, src/main.cc operator*(const Vec3&). -/
def hadamard (v other : Vec3) : Vec3 :=
  ⟨v.x * other.x, v.y * other.y, v.z * other.z⟩

/-- Scalar multiple, src/main.cc operator*(float). -/
def smul (v : Vec3) (scalar : ℝ) : Vec3 :=
  ⟨v.x * scalar, v.y * scalar, v.z * scalar⟩

/-- Vector subtraction, src/main.cc operator-(const Vec3&). -/
def sub (v other : Vec3) : Vec3 := ⟨v.x - other.x, v.y - other.y, v.z - other.z⟩

/-- Vector addition, src/main.cc operator+(const Vec3&). -/
def add (v other : Vec3) : Vec3 := ⟨v.x + other.x, v.y + other.y, v.z + other.z⟩

instance : Add Vec3 := ⟨add⟩
instance : Sub Vec3 := ⟨sub⟩

theorem add_def (v other : Vec3) :
    v + other = ⟨v.x + other.x, v.y + other.y, v.z + other.z⟩ := rfl

theorem sub_def (v other : Vec3) :
    v - other = ⟨v.x - other.x, v.y - other.y, v.z - other.z⟩ := rfl

end Vec3

/-- Homogeneous 4-component vector, used for applying a Mat4 to a point
exactly as the vertex shader does (gl_Position = M * pos). -/
structure Vec4 where
  x : ℝ
  y : ℝ
  z : ℝ
  w : ℝ


/-- Column-major 4x4 matrix, src/main.cc struct Mat4: field ei mirrors
elems[i] of the 16-element array. -/
structure Mat4 where
  e0 : ℝ
  e1 : ℝ
  e2 : ℝ
  e3 : ℝ
  e4 : ℝ
  e5 : ℝ
  e6 : ℝ
  e7 : ℝ
  e8 : ℝ
  e9 : ℝ
  e10 : ℝ
  e11 : ℝ
  e12 : ℝ
  e13 : ℝ
  e14 : ℝ
  e15 : ℝ


namespace Mat4

/-- Default constructor (identity), src/main.cc lines 212-216. -/
def identity : Mat4 := ⟨1, 0, 0, 0, 0, 1, 0, 0, 0, 0, 1, 0, 0, 0, 0, 1⟩

/-- The 16-coefficient constructor: arguments in row-major reading order,
stored column-major (transposed), src/main.cc lines 218-226. -/
def fromRows (m11 m12 m13 m14 m21 m22 m23 m24 m31 m32 m33 m34 m41 m42 m43 m44 : ℝ) :
    Mat4 :=
  ⟨m11, m21, m31, m41,
   m12, m22, m32, m42,
   m13, m23, m33, m43,
   m14, m24, m34, m44⟩

/-- Mat4::look_at, src/main.cc lines 228-254, line by line. -/
def look_at (camera_pos camera_target up : Vec3) : Mat4 :=
  let camera_dir := (camera_pos - camera_target).norm
  let camera_right := (up.cross camera_dir).norm
  let camera_up := camera_dir.cross camera_right
  let npos := camera_pos.neg
  let right_perm_sum := (npos.hadamard camera_right).sum
  let up_perm_sum := (npos.hadamard camera_up).sum
  let dir_perm_sum := (npos.hadamard camera_dir).sum
  fromRows camera_right.x camera_right.y camera_right.z right_perm_sum
           camera_up.x    camera_up.y    camera_up.z    up_perm_sum
           camera_dir.x   camera_dir.y   camera_dir.z   dir_perm_sum
           0              0              0              1

/-- Mat4::projection, src/main.cc lines 256-275: starts from identity and
overwrites elems 0, 5, 10, 11, 14. -/
def projection (fov_x z_near z_far : ℝ) : Mat4 :=
  let fov_x_rad := deg_to_rad fov_x
  let angle := fov_x_rad / 2
  let tangent := Real.tan angle
  let right := z_near * tangent
  let top := right / aspect_ratio
  { identity with
      e0 := z_near / right
      e5 := z_near / top
      e10 := (z_far + z_near) / (z_near - z_far)
      e11 := -1
      e14 := 2 * z_far * z_near / (z_near - z_far) }

/-- Mat4::translate, src/main.cc lines 277-283: accumulates into
elems 12, 13, 14. -/
def translate (m : Mat4) (x y z : ℝ) : Mat4 :=
  { m with e12 := m.e12 + x, e13 := m.e13 + y, e14 := m.e14 + z }

/-- Mat4::rotate_x, src/main.cc lines 285-297: multiplies elems 5 and 10 by
cos, overwrites elems 6 and 9 with plus and minus sin. -/
def rotate_x (m : Mat4) (angle : ℝ) : Mat4 :=
  let a := deg_to_rad angle
  { m with
      e5 := m.e5 * Real.cos a
      e10 := m.e10 * Real.cos a
      e6 := Real.sin a
      e9 := -Real.sin a }

/-- Mat4::rotate_y, src/main.cc lines 299-311: multiplies elems 0 and 10 by
cos, overwrites elems 2 and 8 with minus and plus sin. -/
def rotate_y (m : Mat4) (angle : ℝ) : Mat4 :=
  let a := deg_to_rad angle
  { m with
      e0 := m.e0 * Real.cos a
      e10 := m.e10 * Real.cos a
      e2 := -Real.sin a
      e8 := Real.sin a }

/-- Mat4::rotate_z, src/main.cc lines 313-325: multiplies elems 0 and 5 by
cos, overwrites elems 1 and 4 with plus and minus sin. -/
def rotate_z (m : Mat4) (angle : ℝ) : Mat4 :=
  let a := deg_to_rad angle
  { m with
      e0 := m.e0 * Real.cos a
      e5 := m.e5 * Real.cos a
      e1 := Real.sin a
      e4 := -Real.sin a }

/-- Apply the matrix to a homogeneous column vector, the standard GL
convention used by the vertex shader (column-major storage, M * v):
component i of the result is sum over j of elems[4*j+i] * v_j. -/
def applyV4 (m : Mat4) (v : Vec4) : Vec4 :=
  ⟨m.e0 * v.x + m.e4 * v.y + m.e8 * v.z + m.e12 * v.w,
   m.e1 * v.x + m.e5 * v.y + m.e9 * v.z + m.e13 * v.w,
   m.e2 * v.x + m.e6 * v.y + m.e10 * v.z + m.e14 * v.w,
   m.e3 * v.x + m.e7 * v.y + m.e11 * v.z + m.e15 * v.w⟩

/-- True matrix-matrix product under the same column-major convention:
(mul A B)[i][j] = sum over k of A[i][k] * B[k][j]. -/
def mul (A B : Mat4) : Mat4 :=
  ⟨A.e0 * B.e0 + A.e4 * B.e1 + A.e8 * B.e2 + A.e12 * B.e3,
   A.e1 * B.e0 + A.e5 * B.e1 + A.e9 * B.e2 + A.e13 * B.e3,
   A.e2 * B.e0 + A.e6 * B.e1 + A.e10 * B.e2 + A.e14 * B.e3,
   A.e3 * B.e0 + A.e7 * B.e1 + A.e11 * B.e2 + A.e15 * B.e3,
   A.e0 * B.e4 + A.e4 * B.e5 + A.e8 * B.e6 + A.e12 * B.e7,
   A.e1 * B.e4 + A.e5 * B.e5 + A.e9 * B.e6 + A.e13 * B.e7,
   A.e2 * B.e4 + A.e6 * B.e5 + A.e10 * B.e6 + A.e14 * B.e7,
   A.e3 * B.e4 + A.e7 * B.e5 + A.e11 * B.e6 + A.e15 * B.e7,
   A.e0 * B.e8 + A.e4 * B.e9 + A.e8 * B.e10 + A.e12 * B.e11,
   A.e1 * B.e8 + A.e5 * B.e9 + A.e9 * B.e10 + A.e13 * B.e11,
   A.e2 * B.e8 + A.e6 * B.e9 + A.e10 * B.e10 + A.e14 * B.e11,
   A.e3 * B.e8 + A.e7 * B.e9 + A.e11 * B.e10 + A.e15 * B.e11,
   A.e0 * B.e12 + A.e4 * B.e13 + A.e8 * B.e14 + A.e12 * B.e15,
   A.e1 * B.e12 + A.e5 * B.e13 + A.e9 * B.e14 + A.e13 * B.e15,
   A.e2 * B.e12 + A.e6 * B.e13 + A.e10 * B.e14 + A.e14 * B.e15,
   A.e3 * B.e12 + A.e7 * B.e13 + A.e11 * B.e14 + A.e15 * B.e15⟩

end Mat4

/-- Pitch clamp upper bound, src/main.cc line 343. -/
def CAMERA_PITCH_MAX : ℝ := 89

/-- Pitch clamp lower bound, src/main.cc line 344. -/
def CAMERA_PITCH_MIN : ℝ := -89

/-- The pitch clamp of src/main.cc lines 368-369. -/
def clampPitch (p : ℝ) : ℝ :=
  if p > CAMERA_PITCH_MAX then CAMERA_PITCH_MAX
  else if p < CAMERA_PITCH_MIN then CAMERA_PITCH_MIN
  else p

/-- The camera and cursor globals of src/main.cc lines 336-349 gathered into
one state record. -/
structure CameraState where
  camera_pos : Vec3
  camera_front : Vec3
  camera_up : Vec3
  camera_yaw : ℝ
  camera_pitch : ℝ
  last_x : ℝ
  last_y : ℝ

/-- Initial values of the globals, src/main.cc lines 336-349. -/
def initState : CameraState :=
  { camera_pos := ⟨0, 0, 3⟩
    camera_front := ⟨0, 0, -1⟩
    camera_up := ⟨0, 1, 0⟩
    camera_yaw := -90
    camera_pitch := 0
    last_x := WIN_WIDTH / 2
    last_y := WIN_HEIGHT / 2 }

/-- mouse_callback, src/main.cc lines 351-387, line by line: offsets from the
last cursor position scaled by sensitivity 0.1, accumulation into yaw and
pitch, pitch clamp, and recomputation of the normalized front vector. -/
def mouse_callback (s : CameraState) (x y : ℝ) : CameraState :=
  let x_off := (x - s.last_x) * 0.1
  let y_off := (s.last_y - y) * 0.1
  let yaw := s.camera_yaw + x_off
  let pitch := clampPitch (s.camera_pitch + y_off)
  let camera_direction : Vec3 :=
    ⟨Real.cos (deg_to_rad yaw) * Real.cos (deg_to_rad pitch),
     Real.sin (deg_to_rad pitch),
     Real.sin (deg_to_rad yaw) * Real.cos (deg_to_rad pitch)⟩
  { s with
      camera_yaw := yaw
      camera_pitch := pitch
      camera_front := camera_direction.norm
      last_x := x
      last_y := y }

/-- process_input, src/main.cc lines 389-414: W/S move along front, A/D move
along the normalized cross of front and up, each scaled by
camera_speed = 5 * delta_time; the four key checks run in order. -/
def process_input (w s a d : Bool) (delta_time : ℝ) (st : CameraState) :
    CameraState :=
  let camera_speed := 5 * delta_time
  let st1 := if w then
      { st with camera_pos := st.camera_pos + st.camera_front.smul camera_speed }
    else st
  let st2 := if s then
      { st1 with camera_pos := st1.camera_pos - st1.camera_front.smul camera_speed }
    else st1
  let st3 := if a then
      { st2 with camera_pos :=
          st2.camera_pos - ((st2.camera_front.cross st2.camera_up).norm).smul camera_speed }
    else st2
  let st4 := if d then
      { st3 with camera_pos :=
          st3.camera_pos + ((st3.camera_front.cross st3.camera_up).norm).smul camera_speed }
    else st3
  st4

/-- Standard x-axis rotation matrix as the spec words it (rows 1 0 0 0,
0 cos -sin 0, 0 sin cos 0, 0 0 0 1), for comparison with rotate_x. -/
def stdRotX (angle : ℝ) : Mat4 :=
  Mat4.fromRows 1 0 0 0
                0 (Real.cos (deg_to_rad angle)) (-Real.sin (deg_to_rad angle)) 0
                0 (Real.sin (deg_to_rad angle)) (Real.cos (deg_to_rad angle)) 0
                0 0 0 1

/-- Standard y-axis rotation matrix as the spec words it, for comparison
with rotate_y. -/
def stdRotY (angle : ℝ) : Mat4 :=
  Mat4.fromRows (Real.cos (deg_to_rad angle)) 0 (Real.sin (deg_to_rad angle)) 0
                0 1 0 0
                (-Real.sin (deg_to_rad angle)) 0 (Real.cos (deg_to_rad angle)) 0
                0 0 0 1

/-- Standard z-axis rotation matrix as the spec words it, for comparison
with rotate_z. -/
def stdRotZ (angle : ℝ) : Mat4 :=
  Mat4.fromRows (Real.cos (deg_to_rad angle)) (-Real.sin (deg_to_rad angle)) 0 0
                (Real.sin (deg_to_rad angle)) (Real.cos (deg_to_rad angle)) 0 0
                0 0 1 0
                0 0 0 1

theorem Vec3.length_nonneg (v : Vec3) : 0 ≤ v.length := Real.sqrt_nonneg _

theorem Vec3.sq_sum_nonneg (v : Vec3) : 0 ≤ v.x * v.x + v.y * v.y + v.z * v.z :=
  add_nonneg (add_nonneg (mul_self_nonneg _) (mul_self_nonneg _)) (mul_self_nonneg _)

theorem Vec3.sq_of_length (v : Vec3) :
    v.length * v.length = v.x * v.x + v.y * v.y + v.z * v.z :=
  Real.mul_self_sqrt (Vec3.sq_sum_nonneg v)

theorem Vec3.length_of_norm (v : Vec3) (h : v.length ≠ 0) :
    (v.norm).length = 1 := by
  have hsq := Vec3.sq_of_length v
  have hsum : v.x / v.length * (v.x / v.length) + v.y / v.length * (v.y / v.length) +
      v.z / v.length * (v.z / v.length) = 1 := by
    field_simp
    ring_nf
    ring_nf at hsq
    linarith [hsq]
  simp only [Vec3.norm, Vec3.length] at hsum ⊢
  rw [hsum, Real.sqrt_one]

theorem Vec3.length_of_smul (v : Vec3) (s : ℝ) :
    (v.smul s).length = |s| * v.length := by
  simp only [Vec3.smul, Vec3.length]
  have : v.x * s * (v.x * s) + v.y * s * (v.y * s) + v.z * s * (v.z * s) =
      s * s * (v.x * v.x + v.y * v.y + v.z * v.z) := by ring
  rw [this, Real.sqrt_mul (mul_self_nonneg s), Real.sqrt_mul_self_eq_abs]

/-- C1: for every eye position, front vector and up vector for which the
look-at construction is defined (front and the derived right vector
nonzero), the view matrix look_at(eye, eye+front, up) applied to eye as a
homogeneous point yields the origin of camera space: each translation
entry -(basis dot eye), computed via the hadamard-plus-sum trick, exactly
cancels the corresponding basis-row dot product with eye. -/
theorem look_at_maps_eye_to_origin (eye front up : Vec3)
    (hfront : front ≠ ⟨0, 0, 0⟩)
    (hright : up.cross ((eye - (eye + front)).norm) ≠ ⟨0, 0, 0⟩) :
    Mat4.applyV4 (Mat4.look_at eye (eye + front) up) ⟨eye.x, eye.y, eye.z, 1⟩ =
      ⟨0, 0, 0, 1⟩ := by
  simp only [Mat4.look_at, Mat4.fromRows, Mat4.applyV4, Vec3.norm, Vec3.cross,
    Vec3.neg, Vec3.hadamard, Vec3.sum, Vec3.sub_def, Vec3.add_def, Vec4.mk.injEq]
  refine ⟨by ring, by ring, by ring, by ring⟩

/-- Witness for C1 at eye = (0,0,3), front = (0,0,-1), up = (0,1,0): both
nondegeneracy hypotheses hold there and the view matrix sends eye to the
origin. -/
theorem look_at_maps_eye_to_origin_witness :
    (⟨0, 0, -1⟩ : Vec3) ≠ ⟨0, 0, 0⟩ ∧
    Vec3.cross ⟨0, 1, 0⟩ ((((⟨0, 0, 3⟩ : Vec3)) - ((⟨0, 0, 3⟩ : Vec3) + ⟨0, 0, -1⟩)).norm) ≠
      ⟨0, 0, 0⟩ ∧
    Mat4.applyV4 (Mat4.look_at ⟨0, 0, 3⟩ ((⟨0, 0, 3⟩ : Vec3) + ⟨0, 0, -1⟩) ⟨0, 1, 0⟩)
        ⟨0, 0, 3, 1⟩ = ⟨0, 0, 0, 1⟩ := by
  have h1 : (⟨0, 0, -1⟩ : Vec3) ≠ ⟨0, 0, 0⟩ := by
    simp only [ne_eq, Vec3.mk.injEq]
    norm_num
  have h2 : Vec3.cross ⟨0, 1, 0⟩
      ((((⟨0, 0, 3⟩ : Vec3)) - ((⟨0, 0, 3⟩ : Vec3) + ⟨0, 0, -1⟩)).norm) ≠ ⟨0, 0, 0⟩ := by
    simp only [ne_eq, Vec3.sub_def, Vec3.add_def, Vec3.norm, Vec3.length, Vec3.cross,
      Vec3.mk.injEq]
    norm_num
  exact ⟨h1, h2, look_at_maps_eye_to_origin ⟨0, 0, 3⟩ ⟨0, 0, -1⟩ ⟨0, 1, 0⟩ h1 h2⟩

/-- C2: the code leaves elems[15] at its identity value 1 instead of 0, so
the clip-space w of a view-space point (0,0,z,1) is -z + 1 rather than -z.
Evaluated at fov_x = 90, z_near = 1, z_far = 10: the near-plane center
(0,0,-1,1) maps to z/w = -1/2 (the claim says -1) and the far-plane center
(0,0,-10,1) maps to z/w = 10/11 (the claim says +1).  With the single cell
elems[15] corrected to 0, the same matrix maps the two points to exactly
-1 and +1, confirming the claimed property as the intent of the
construction. -/
theorem projection_near_far_divergence :
    (Mat4.applyV4 (Mat4.projection 90 1 10) ⟨0, 0, -1, 1⟩).z /
        (Mat4.applyV4 (Mat4.projection 90 1 10) ⟨0, 0, -1, 1⟩).w = -(1 / 2) ∧
    (Mat4.applyV4 (Mat4.projection 90 1 10) ⟨0, 0, -10, 1⟩).z /
        (Mat4.applyV4 (Mat4.projection 90 1 10) ⟨0, 0, -10, 1⟩).w = 10 / 11 ∧
    (Mat4.applyV4 { Mat4.projection 90 1 10 with e15 := 0 } ⟨0, 0, -1, 1⟩).z /
        (Mat4.applyV4 { Mat4.projection 90 1 10 with e15 := 0 } ⟨0, 0, -1, 1⟩).w
      = -1 ∧
    (Mat4.applyV4 { Mat4.projection 90 1 10 with e15 := 0 } ⟨0, 0, -10, 1⟩).z /
        (Mat4.applyV4 { Mat4.projection 90 1 10 with e15 := 0 } ⟨0, 0, -10, 1⟩).w
      = 1 := by
  simp only [Mat4.projection, Mat4.identity, Mat4.applyV4]
  norm_num

/-- C3: starting from any camera state whose pitch lies in [-89, 89]
degrees, a look update leaves pitch in [-89, 89]; and any look update whose
scaled y-offset is at least 178 (a large positive offset) drives pitch to
exactly 89 degrees, never beyond. -/
theorem mouse_callback_pitch_clamped (s : CameraState) (x y : ℝ)
    (h : CAMERA_PITCH_MIN ≤ s.camera_pitch ∧ s.camera_pitch ≤ CAMERA_PITCH_MAX) :
    (CAMERA_PITCH_MIN ≤ (mouse_callback s x y).camera_pitch ∧
      (mouse_callback s x y).camera_pitch ≤ CAMERA_PITCH_MAX) ∧
    (178 ≤ (s.last_y - y) * 0.1 →
      (mouse_callback s x y).camera_pitch = CAMERA_PITCH_MAX) := by
  have hpitch : (mouse_callback s x y).camera_pitch =
      clampPitch (s.camera_pitch + (s.last_y - y) * 0.1) := rfl
  rw [hpitch]
  unfold clampPitch CAMERA_PITCH_MIN CAMERA_PITCH_MAX
  unfold CAMERA_PITCH_MIN CAMERA_PITCH_MAX at h
  constructor
  · split
    · norm_num
    · split
      · norm_num
      · constructor <;> linarith
  · intro hoff
    split
    · rfl
    · split
      · linarith [h.1]
      · linarith [h.1]

/-- Witness for C3 at the initial camera state with cursor sample
(400, -1480): the initial pitch 0 lies in [-89, 89], the scaled y-offset is
178, the post-update pitch is in range and equals 89 exactly. -/
theorem mouse_callback_pitch_clamped_witness :
    (CAMERA_PITCH_MIN ≤ initState.camera_pitch ∧
      initState.camera_pitch ≤ CAMERA_PITCH_MAX) ∧
    178 ≤ (initState.last_y - (-1480)) * 0.1 ∧
    ((CAMERA_PITCH_MIN ≤ (mouse_callback initState 400 (-1480)).camera_pitch ∧
        (mouse_callback initState 400 (-1480)).camera_pitch ≤ CAMERA_PITCH_MAX) ∧
      (178 ≤ (initState.last_y - (-1480)) * 0.1 →
        (mouse_callback initState 400 (-1480)).camera_pitch = CAMERA_PITCH_MAX)) := by
  have h : CAMERA_PITCH_MIN ≤ initState.camera_pitch ∧
      initState.camera_pitch ≤ CAMERA_PITCH_MAX := by
    unfold CAMERA_PITCH_MIN CAMERA_PITCH_MAX initState
    norm_num
  refine ⟨h, ?_, mouse_callback_pitch_clamped initState 400 (-1480) h⟩
  unfold initState WIN_HEIGHT
  norm_num

/-- C4: after every look update the camera front vector equals the
normalization of (cos yaw * cos pitch, sin pitch, sin yaw * cos pitch)
evaluated at the post-clamp yaw and pitch converted to radians; and the new
yaw is the old yaw plus the scaled x-offset with no wraparound, for yaw of
arbitrary magnitude. -/
theorem mouse_callback_front_formula (s : CameraState) (x y : ℝ) :
    (mouse_callback s x y).camera_front =
      Vec3.norm
        ⟨Real.cos (deg_to_rad (mouse_callback s x y).camera_yaw) *
            Real.cos (deg_to_rad (mouse_callback s x y).camera_pitch),
          Real.sin (deg_to_rad (mouse_callback s x y).camera_pitch),
          Real.sin (deg_to_rad (mouse_callback s x y).camera_yaw) *
            Real.cos (deg_to_rad (mouse_callback s x y).camera_pitch)⟩ ∧
    (mouse_callback s x y).camera_yaw = s.camera_yaw + (x - s.last_x) * 0.1 :=
  ⟨rfl, rfl⟩

theorem process_input_w_only (st : CameraState) (dt : ℝ) :
    process_input true false false false dt st =
      { st with camera_pos := st.camera_pos + st.camera_front.smul (5 * dt) } := rfl

/-- C5: with fixed delta_time, two consecutive forward-move updates (front
unchanged in between, which movement updates guarantee) displace the camera
by exactly 2 * 5 * delta_time along front, the same displacement as a
single update over the accumulated elapsed time 2 * delta_time. -/
theorem process_input_forward_twice (st : CameraState) (dt : ℝ) :
    (process_input true false false false dt
        (process_input true false false false dt st)).camera_pos =
      st.camera_pos + st.camera_front.smul (2 * 5 * dt) ∧
    (process_input true false false false dt
        (process_input true false false false dt st)).camera_front =
      st.camera_front ∧
    (process_input true false false false dt
        (process_input true false false false dt st)).camera_pos =
      (process_input true false false false (2 * dt) st).camera_pos := by
  rw [process_input_w_only, process_input_w_only, process_input_w_only]
  refine ⟨?_, rfl, ?_⟩ <;>
    simp only [Vec3.smul, Vec3.add_def, Vec3.mk.injEq] <;>
    refine ⟨by ring, by ring, by ring⟩

/-- C6 counterexample: normalizing the zero vector is not clamped to a
fallback unit vector and does not fail: Vec3::norm divides unconditionally,
the call returns normally, and the result has length 0, not 1 (in the float
code the components are NaN; in this real-valued model division by the zero
length yields the zero vector — either way no unit fallback and no
failure). -/
theorem norm_zero_no_fallback :
    Vec3.norm ⟨0, 0, 0⟩ = ⟨0, 0, 0⟩ ∧ (Vec3.norm ⟨0, 0, 0⟩).length ≠ 1 := by
  constructor
  · simp [Vec3.norm, Vec3.length]
  · simp [Vec3.norm, Vec3.length]

/-- C6 amended: Vec3::norm has no zero-length guard: it divides each
component by the length unconditionally and returns normally, so a
zero-length input silently yields a degenerate non-unit result (length 0
here, NaN components in the float code); for every input of nonzero length
the result is a unit vector, so the camera state stays well-formed only
because callers never pass a zero-length vector. -/
theorem norm_no_zero_guard :
    ((Vec3.norm ⟨0, 0, 0⟩).length = 0 ∧ Vec3.norm ⟨0, 0, 0⟩ = ⟨0, 0, 0⟩) ∧
    ∀ v : Vec3, v.length ≠ 0 → (v.norm).length = 1 := by
  refine ⟨⟨?_, ?_⟩, fun v hv => Vec3.length_of_norm v hv⟩
  · simp [Vec3.norm, Vec3.length]
  · simp [Vec3.norm, Vec3.length]

/-- Witness for C6 amended at v = (0,0,-1): the length is nonzero there and
normalizing yields a unit vector. -/
theorem norm_no_zero_guard_witness :
    (⟨0, 0, -1⟩ : Vec3).length ≠ 0 ∧ ((⟨0, 0, -1⟩ : Vec3).norm).length = 1 := by
  have hv : (⟨0, 0, -1⟩ : Vec3).length ≠ 0 := by
    simp [Vec3.length]
  exact ⟨hv, norm_no_zero_guard.2 ⟨0, 0, -1⟩ hv⟩

/-- C9: the first look update after startup computes its offset from the
fixed initial reference position (WIN_WIDTH/2, WIN_HEIGHT/2) = (400, 300),
not from any actual previous cursor position: a first sample at (x, y)
makes yaw -90 + 0.1 * (x - 400) and pitch the clamp of 0.1 * (300 - y). -/
theorem first_mouse_sample_relative_to_center (x y : ℝ) :
    (mouse_callback initState x y).camera_yaw = -90 + 0.1 * (x - 400) ∧
    (mouse_callback initState x y).camera_pitch = clampPitch (0.1 * (300 - y)) := by
  constructor
  · show initState.camera_yaw + (x - initState.last_x) * 0.1 = -90 + 0.1 * (x - 400)
    unfold initState WIN_WIDTH
    norm_num
    ring
  · show clampPitch (initState.camera_pitch + (initState.last_y - y) * 0.1) =
      clampPitch (0.1 * (300 - y))
    unfold initState WIN_HEIGHT
    norm_num
    ring_nf

/-- C10: a move update, with any combination of the four movement keys and
any delta_time, modifies only the camera position: front, up, yaw, pitch
and the last cursor position are unchanged. -/
theorem process_input_only_moves_position (w s a d : Bool) (dt : ℝ)
    (st : CameraState) :
    (process_input w s a d dt st).camera_front = st.camera_front ∧
    (process_input w s a d dt st).camera_up = st.camera_up ∧
    (process_input w s a d dt st).camera_yaw = st.camera_yaw ∧
    (process_input w s a d dt st).camera_pitch = st.camera_pitch ∧
    (process_input w s a d dt st).last_x = st.last_x ∧
    (process_input w s a d dt st).last_y = st.last_y := by
  cases w <;> cases s <;> cases a <;> cases d <;>
    exact ⟨rfl, rfl, rfl, rfl, rfl, rfl⟩

theorem deg_to_rad_ninety : deg_to_rad 90 = Real.pi / 2 := by
  unfold deg_to_rad
  ring

/-- C7: each rotation builder multiplies exactly the two diagonal cells of
its block by cos, overwrites the two off-diagonal cells of that block with
plus and minus sin, and leaves the other twelve elements unchanged; on the
identity matrix this produces the standard axis rotation matrix; but it is
not a general matrix-multiply composition: there is a prior state (a z
rotation) on which rotate_x agrees with neither order of a true matrix
product with the standard x rotation. -/
theorem rotate_builders_characterization :
    (∀ (m : Mat4) (a : ℝ),
      (m.rotate_x a).e5 = m.e5 * Real.cos (deg_to_rad a) ∧
      (m.rotate_x a).e10 = m.e10 * Real.cos (deg_to_rad a) ∧
      (m.rotate_x a).e6 = Real.sin (deg_to_rad a) ∧
      (m.rotate_x a).e9 = -Real.sin (deg_to_rad a) ∧
      (m.rotate_x a).e0 = m.e0 ∧ (m.rotate_x a).e1 = m.e1 ∧
      (m.rotate_x a).e2 = m.e2 ∧ (m.rotate_x a).e3 = m.e3 ∧
      (m.rotate_x a).e4 = m.e4 ∧ (m.rotate_x a).e7 = m.e7 ∧
      (m.rotate_x a).e8 = m.e8 ∧ (m.rotate_x a).e11 = m.e11 ∧
      (m.rotate_x a).e12 = m.e12 ∧ (m.rotate_x a).e13 = m.e13 ∧
      (m.rotate_x a).e14 = m.e14 ∧ (m.rotate_x a).e15 = m.e15) ∧
    (∀ (m : Mat4) (a : ℝ),
      (m.rotate_y a).e0 = m.e0 * Real.cos (deg_to_rad a) ∧
      (m.rotate_y a).e10 = m.e10 * Real.cos (deg_to_rad a) ∧
      (m.rotate_y a).e2 = -Real.sin (deg_to_rad a) ∧
      (m.rotate_y a).e8 = Real.sin (deg_to_rad a) ∧
      (m.rotate_y a).e1 = m.e1 ∧ (m.rotate_y a).e3 = m.e3 ∧
      (m.rotate_y a).e4 = m.e4 ∧ (m.rotate_y a).e5 = m.e5 ∧
      (m.rotate_y a).e6 = m.e6 ∧ (m.rotate_y a).e7 = m.e7 ∧
      (m.rotate_y a).e9 = m.e9 ∧ (m.rotate_y a).e11 = m.e11 ∧
      (m.rotate_y a).e12 = m.e12 ∧ (m.rotate_y a).e13 = m.e13 ∧
      (m.rotate_y a).e14 = m.e14 ∧ (m.rotate_y a).e15 = m.e15) ∧
    (∀ (m : Mat4) (a : ℝ),
      (m.rotate_z a).e0 = m.e0 * Real.cos (deg_to_rad a) ∧
      (m.rotate_z a).e5 = m.e5 * Real.cos (deg_to_rad a) ∧
      (m.rotate_z a).e1 = Real.sin (deg_to_rad a) ∧
      (m.rotate_z a).e4 = -Real.sin (deg_to_rad a) ∧
      (m.rotate_z a).e2 = m.e2 ∧ (m.rotate_z a).e3 = m.e3 ∧
      (m.rotate_z a).e6 = m.e6 ∧ (m.rotate_z a).e7 = m.e7 ∧
      (m.rotate_z a).e8 = m.e8 ∧ (m.rotate_z a).e9 = m.e9 ∧
      (m.rotate_z a).e10 = m.e10 ∧ (m.rotate_z a).e11 = m.e11 ∧
      (m.rotate_z a).e12 = m.e12 ∧ (m.rotate_z a).e13 = m.e13 ∧
      (m.rotate_z a).e14 = m.e14 ∧ (m.rotate_z a).e15 = m.e15) ∧
    (∀ a : ℝ, Mat4.identity.rotate_x a = stdRotX a) ∧
    (∀ a : ℝ, Mat4.identity.rotate_y a = stdRotY a) ∧
    (∀ a : ℝ, Mat4.identity.rotate_z a = stdRotZ a) ∧
    (∃ (m : Mat4) (a : ℝ),
      m.rotate_x a ≠ m.mul (Mat4.identity.rotate_x a) ∧
      m.rotate_x a ≠ (Mat4.identity.rotate_x a).mul m) := by
  refine ⟨fun m a => ⟨rfl, rfl, rfl, rfl, rfl, rfl, rfl, rfl, rfl, rfl, rfl, rfl,
      rfl, rfl, rfl, rfl⟩,
    fun m a => ⟨rfl, rfl, rfl, rfl, rfl, rfl, rfl, rfl, rfl, rfl, rfl, rfl,
      rfl, rfl, rfl, rfl⟩,
    fun m a => ⟨rfl, rfl, rfl, rfl, rfl, rfl, rfl, rfl, rfl, rfl, rfl, rfl,
      rfl, rfl, rfl, rfl⟩,
    fun a => ?_, fun a => ?_, fun a => ?_, ?_⟩
  · simp [Mat4.rotate_x, stdRotX, Mat4.identity, Mat4.fromRows]
  · simp [Mat4.rotate_y, stdRotY, Mat4.identity, Mat4.fromRows]
  · simp [Mat4.rotate_z, stdRotZ, Mat4.identity, Mat4.fromRows]
  · refine ⟨Mat4.identity.rotate_z 90, 90, fun h => ?_, fun h => ?_⟩
    · have h4 := congrArg Mat4.e4 h
      norm_num [Mat4.rotate_x, Mat4.rotate_z, Mat4.mul, Mat4.identity,
        deg_to_rad_ninety, Real.cos_pi_div_two, Real.sin_pi_div_two] at h4
    · have h1 := congrArg Mat4.e1 h
      norm_num [Mat4.rotate_x, Mat4.rotate_z, Mat4.mul, Mat4.identity,
        deg_to_rad_ninety, Real.cos_pi_div_two, Real.sin_pi_div_two] at h1

theorem process_input_wd_only (st : CameraState) (dt : ℝ) :
    process_input true false false true dt st =
      { st with camera_pos := (st.camera_pos + st.camera_front.smul (5 * dt)) +
          ((st.camera_front.cross st.camera_up).norm).smul (5 * dt) } := rfl

theorem sqrt_twentyfive : Real.sqrt 25 = 5 := by
  rw [show (25 : ℝ) = 5 ^ 2 by norm_num, Real.sqrt_sq] <;> norm_num

theorem sqrt_two_gt_one : (1 : ℝ) < Real.sqrt 2 := by
  simpa using Real.sqrt_lt_sqrt (by norm_num) (show (1 : ℝ) < 2 by norm_num)

theorem sqrt_two_lt_two : Real.sqrt 2 < 2 := by
  have h4 : Real.sqrt 4 = 2 := by
    rw [show (4 : ℝ) = 2 ^ 2 by norm_num, Real.sqrt_sq] <;> norm_num
  have := Real.sqrt_lt_sqrt (show (0 : ℝ) ≤ 2 by norm_num) (show (2 : ℝ) < 4 by norm_num)
  linarith

/-- C8 counterexample: at the initial camera state with delta_time 1 the
per-update movement amount is speed = 5; the forward-plus-strafe update
displaces the camera by (5, 0, -5), of magnitude sqrt 50, while the
forward-only update displaces it by (0, 0, -5), of magnitude 5; the excess
sqrt 50 - 5 is below speed, refuting the claim that the diagonal magnitude
exceeds the single-axis magnitude by more than speed. -/
theorem diagonal_move_excess_not_above_speed :
    ¬ (((process_input true false false true 1 initState).camera_pos -
          initState.camera_pos).length >
        ((process_input true false false false 1 initState).camera_pos -
          initState.camera_pos).length + 5 * 1) := by
  have h1 : process_input true false false false 1 initState =
      { initState with camera_pos := ⟨0, 0, -2⟩ } := by
    rw [process_input_w_only]
    simp [initState, Vec3.smul, Vec3.add_def]
    norm_num
  have h2 : process_input true false false true 1 initState =
      { initState with camera_pos := ⟨5, 0, -2⟩ } := by
    rw [process_input_wd_only]
    simp [initState, Vec3.smul, Vec3.add_def, Vec3.cross, Vec3.norm, Vec3.length]
    norm_num
  rw [h1, h2]
  push_neg
  simp only [initState, Vec3.sub_def, Vec3.length]
  norm_num
  have h50 : Real.sqrt 50 ≤ 10 := by
    have hle := Real.sqrt_le_sqrt (show (50 : ℝ) ≤ 100 by norm_num)
    have h100 : Real.sqrt 100 = 10 := by
      rw [show (100 : ℝ) = 10 ^ 2 by norm_num, Real.sqrt_sq] <;> norm_num
    linarith
  linarith [sqrt_twentyfive, h50]

/-- C8 amended: for every camera state with unit front vector, well-defined
right vector (nonzero cross of front and up) and positive delta_time, the
combined forward-plus-strafe update produces a displacement whose magnitude
(speed times sqrt 2) strictly exceeds the single-axis magnitude (speed),
but the excess stays below speed: the combined input is not normalized, yet
the two unit directions are orthogonal, so the gain is the factor sqrt 2,
not 2. -/
theorem diagonal_move_exceeds_single_axis (st : CameraState) (dt : ℝ)
    (hdt : 0 < dt)
    (hfront : st.camera_front.length = 1)
    (hright : (st.camera_front.cross st.camera_up).length ≠ 0) :
    ((process_input true false false false dt st).camera_pos -
        st.camera_pos).length <
      ((process_input true false false true dt st).camera_pos -
        st.camera_pos).length ∧
    ((process_input true false false true dt st).camera_pos -
        st.camera_pos).length <
      ((process_input true false false false dt st).camera_pos -
        st.camera_pos).length + 5 * dt := by
  have hsp : 0 < 5 * dt := by linarith
  set f := st.camera_front with hf
  set u := st.camera_up with hu
  set c := f.cross u with hc
  set r := c.norm with hr
  have hsingle : (process_input true false false false dt st).camera_pos -
      st.camera_pos = f.smul (5 * dt) := by
    rw [process_input_w_only]
    simp only [Vec3.smul, Vec3.add_def, Vec3.sub_def, Vec3.mk.injEq]
    refine ⟨by ring, by ring, by ring⟩
  have hdiag : (process_input true false false true dt st).camera_pos -
      st.camera_pos = (Vec3.add f r).smul (5 * dt) := by
    rw [process_input_wd_only]
    simp only [Vec3.smul, Vec3.add_def, Vec3.sub_def, Vec3.add, Vec3.mk.injEq]
    refine ⟨by ring, by ring, by ring⟩
  have hr1 : r.length = 1 := Vec3.length_of_norm c hright
  have hfc : f.x * c.x + f.y * c.y + f.z * c.z = 0 := by
    rw [hc]
    simp only [Vec3.cross]
    ring
  have hdot : f.x * r.x + f.y * r.y + f.z * r.z = 0 := by
    rw [hr]
    simp only [Vec3.norm]
    have hcollect : f.x * (c.x / c.length) + f.y * (c.y / c.length) +
        f.z * (c.z / c.length) = (f.x * c.x + f.y * c.y + f.z * c.z) / c.length := by
      ring
    rw [hcollect, hfc, zero_div]
  have hf2 : f.x * f.x + f.y * f.y + f.z * f.z = 1 := by
    have hsq := Vec3.sq_of_length f
    rw [hfront] at hsq
    linarith
  have hr2 : r.x * r.x + r.y * r.y + r.z * r.z = 1 := by
    have hsq := Vec3.sq_of_length r
    rw [hr1] at hsq
    linarith
  have hfr_len : (Vec3.add f r).length = Real.sqrt 2 := by
    simp only [Vec3.add, Vec3.length]
    congr 1
    linear_combination hf2 + hr2 + 2 * hdot
  have hsingle_len : (f.smul (5 * dt)).length = 5 * dt := by
    rw [Vec3.length_of_smul, hfront, abs_of_pos hsp, mul_one]
  have hdiag_len : ((Vec3.add f r).smul (5 * dt)).length = 5 * dt * Real.sqrt 2 := by
    rw [Vec3.length_of_smul, hfr_len, abs_of_pos hsp]
  rw [hsingle, hdiag, hsingle_len, hdiag_len]
  constructor
  · nlinarith [sqrt_two_gt_one, hsp]
  · nlinarith [sqrt_two_lt_two, hsp]

/-- Witness for C8 amended at the initial camera state with delta_time 1:
the front vector is unit, the cross of front and up is nonzero, delta_time
is positive, and the diagonal displacement magnitude lies strictly between
the single-axis magnitude and the single-axis magnitude plus speed. -/
theorem diagonal_move_exceeds_single_axis_witness :
    (0 : ℝ) < 1 ∧
    initState.camera_front.length = 1 ∧
    (initState.camera_front.cross initState.camera_up).length ≠ 0 ∧
    (((process_input true false false false 1 initState).camera_pos -
        initState.camera_pos).length <
      ((process_input true false false true 1 initState).camera_pos -
        initState.camera_pos).length ∧
    ((process_input true false false true 1 initState).camera_pos -
        initState.camera_pos).length <
      ((process_input true false false false 1 initState).camera_pos -
        initState.camera_pos).length + 5 * 1) := by
  have hdt : (0 : ℝ) < 1 := by norm_num
  have hfront : initState.camera_front.length = 1 := by
    simp [initState, Vec3.length]
  have hright : (initState.camera_front.cross initState.camera_up).length ≠ 0 := by
    simp [initState, Vec3.cross, Vec3.length]
  exact ⟨hdt, hfront, hright,
    diagonal_move_exceeds_single_axis initState 1 hdt hfront hright⟩

end

end Glpg
